import Mathlib

/-!
Shallow embedding of `src/response_template.rs` from `wiremock-rs`.

The file models the `ResponseTemplate` builder: its constructor `new`, the
header setters `append_header` / `insert_header`, the body setter `set_body`,
and the materialization step `generate_response`.

The dependency crate `http_types` (types `StatusCode`, `HeaderName`,
`HeaderValue`, `Response`) is not part of this repository's sources, so its
conversions and the response-construction primitive are modelled from the
spec: status validity is the valid HTTP status range, header names are
validated tokens compared case-insensitively (stored ASCII-lowercased),
header values are validated visible-ASCII strings, and bodies are raw byte
sequences (bytes as `Nat`).  Rust panics (`expect` on a failed `try_into`)
are modelled as the `Except.error` channel carrying the panic message.

The `HashMap<HeaderName, Vec<HeaderValue>>` is modelled as an association
list with the `HashMap` operations used by the source: lookup (`get`),
in-place modification of an existing entry (`get_mut` + `push`) and
insert-or-replace (`insert`).
-/

namespace Wiremock

/-- Modelled from the spec: ASCII lowercasing of a character, as performed by
the `http_types` header-name type (uppercase ASCII letters are shifted by 32,
everything else is unchanged). -/
def lowerChar (c : Char) : Char :=
  if 65 ≤ c.toNat ∧ c.toNat ≤ 90 then Char.ofNat (c.toNat + 32) else c

/-- Modelled from the spec: ASCII lowercasing of a string. -/
def lowerString (s : String) : String :=
  String.mk (s.data.map lowerChar)

/-- Modelled from the spec: RFC 7230 token characters, the characters allowed
in a validated header name. -/
def isTokenChar (c : Char) : Bool :=
  let n := c.toNat
  (48 ≤ n && n ≤ 57) || (65 ≤ n && n ≤ 90) || (97 ≤ n && n ≤ 122) ||
  (n == 33 || n == 35 || n == 36 || n == 37 || n == 38 || n == 39 || n == 42 ||
   n == 43 || n == 45 || n == 46 || n == 94 || n == 95 || n == 96 || n == 124 || n == 126)

/-- Modelled from the spec: a valid header name is a non-empty token. -/
def isValidHeaderNameRaw (s : String) : Bool :=
  !s.data.isEmpty && s.data.all isTokenChar

/-- Modelled from the spec: characters allowed in a header value
(visible ASCII, space and horizontal tab). -/
def isValidHeaderValueChar (c : Char) : Bool :=
  let n := c.toNat
  (32 ≤ n && n ≤ 126) || n == 9

/-- Modelled from the spec: validity of a header value. -/
def isValidHeaderValueRaw (s : String) : Bool :=
  s.data.all isValidHeaderValueChar

/-- Modelled from the spec: validity of a numeric HTTP status code
(the valid HTTP status range). -/
def isValidStatus (n : Nat) : Bool :=
  100 ≤ n && n ≤ 599

/-- Modelled from the spec: the validated, case-insensitive header-name type
of `http_types`.  The stored string is ASCII-lowercased by the fallible
conversion, which makes structural equality case-insensitive on the original
inputs. -/
structure HeaderName where
  name : String
deriving DecidableEq

/-- Modelled from the spec: the validated header-value type of `http_types`. -/
structure HeaderValue where
  value : String
deriving DecidableEq

/-- Modelled from the spec: the fallible conversion of a numeric status-like
input into a status code (`TryInto<StatusCode>`); fails outside the valid
HTTP status range with a message carrying the offending input. -/
def statusCodeTryFrom (s : Nat) : Except String Nat :=
  if isValidStatus s then .ok s else .error ("invalid status code: " ++ toString s)

/-- Modelled from the spec: the fallible conversion of a string into a header
name (`TryInto<HeaderName>`); validates the token and stores it lowercased,
failing with a message carrying the offending input. -/
def headerNameTryFrom (s : String) : Except String HeaderName :=
  if isValidHeaderNameRaw s then .ok ⟨lowerString s⟩
  else .error ("invalid header name: " ++ s)

/-- Modelled from the spec: the fallible conversion of a string into a header
value (`TryInto<HeaderValue>`); fails with a message carrying the offending
input. -/
def headerValueTryFrom (s : String) : Except String HeaderValue :=
  if isValidHeaderValueRaw s then .ok ⟨s⟩
  else .error ("invalid header value: " ++ s)

/-- The header multimap: `HashMap<HeaderName, Vec<HeaderValue>>` modelled as
an association list with unique keys. -/
abbrev Headers := List (HeaderName × List HeaderValue)

/-- `HashMap::get`: look up the value list stored under a key. -/
def hmFind? : Headers → HeaderName → Option (List HeaderValue)
  | [], _ => none
  | p :: rest, k => if p.1 = k then some p.2 else hmFind? rest k

/-- `HashMap::insert`: replace the value stored under the key if present
(keeping the stored key), otherwise add a new entry. -/
def hmInsert : Headers → HeaderName → List HeaderValue → Headers
  | [], k, vs => [(k, vs)]
  | p :: rest, k, vs => if p.1 = k then (p.1, vs) :: rest else p :: hmInsert rest k vs

/-- `HashMap::get_mut` followed by an update: apply `f` to the value stored
under the key, leaving the map unchanged when the key is absent. -/
def hmModify : Headers → HeaderName → (List HeaderValue → List HeaderValue) → Headers
  | [], _, _ => []
  | p :: rest, k, f => if p.1 = k then (p.1, f p.2) :: rest else p :: hmModify rest k f

/-- The `ResponseTemplate` struct: status code, header multimap, optional raw
body (bytes as `Nat`). -/
structure ResponseTemplate where
  status_code : Nat
  headers : Headers
  body : Option (List Nat)
deriving DecidableEq

/-- Body of `ResponseTemplate::new` after the status conversion succeeded:
the given status, an empty header map, no body. -/
def ResponseTemplate.newCore (c : Nat) : ResponseTemplate :=
  { status_code := c, headers := [], body := none }

/-- Body of `ResponseTemplate::append_header` after both conversions
succeeded: push onto the existing value list if the key is present
(`get_mut` + `push`), otherwise insert a fresh single-element list. -/
def ResponseTemplate.appendHeaderCore (t : ResponseTemplate) (key : HeaderName)
    (value : HeaderValue) : ResponseTemplate :=
  match hmFind? t.headers key with
  | some _ => { t with headers := hmModify t.headers key (fun vs => vs ++ [value]) }
  | none => { t with headers := hmInsert t.headers key [value] }

/-- Body of `ResponseTemplate::insert_header` after both conversions
succeeded: unconditionally store the single-element list under the key. -/
def ResponseTemplate.insertHeaderCore (t : ResponseTemplate) (key : HeaderName)
    (value : HeaderValue) : ResponseTemplate :=
  { t with headers := hmInsert t.headers key [value] }

/-- Body of `ResponseTemplate::set_body` after the conversion succeeded:
store the byte sequence, replacing any previous body. -/
def ResponseTemplate.setBodyCore (t : ResponseTemplate) (body : List Nat) : ResponseTemplate :=
  { t with body := some body }

/-- `Result::expect(msg)`: a failed conversion becomes a panic whose message
is the `expect` message followed by the conversion error (the panic is
modelled as the `Except.error` channel). -/
def expectMsg {α : Type} (msg : String) : Except String α → Except String α
  | .ok a => .ok a
  | .error e => .error (msg ++ ": " ++ e)

/-- `ResponseTemplate::new`: the argument is the result of the caller-chosen
`TryInto<StatusCode>` conversion; a conversion failure aborts with the
source's `expect` message. -/
def ResponseTemplate.new (s : Except String Nat) : Except String ResponseTemplate :=
  (expectMsg "Failed to convert into status code." s).map ResponseTemplate.newCore

/-- `ResponseTemplate::append_header`: converts the key, then the value
(each failure aborts with the source's `expect` message), then appends. -/
def ResponseTemplate.append_header (t : ResponseTemplate) (key : Except String HeaderName)
    (value : Except String HeaderValue) : Except String ResponseTemplate := do
  let k ← expectMsg "Failed to convert into header name." key
  let v ← expectMsg "Failed to convert into header value." value
  .ok (t.appendHeaderCore k v)

/-- `ResponseTemplate::insert_header`: converts the key, then the value
(each failure aborts with the source's `expect` message), then replaces. -/
def ResponseTemplate.insert_header (t : ResponseTemplate) (key : Except String HeaderName)
    (value : Except String HeaderValue) : Except String ResponseTemplate := do
  let k ← expectMsg "Failed to convert into header name." key
  let v ← expectMsg "Failed to convert into header value." value
  .ok (t.insertHeaderCore k v)

/-- `ResponseTemplate::set_body`: converts the body (failure aborts with the
source's `expect` message), then stores it. -/
def ResponseTemplate.set_body (t : ResponseTemplate) (body : Except String (List Nat)) :
    Except String ResponseTemplate := do
  let b ← expectMsg "Failed to convert into body." body
  .ok (t.setBodyCore b)

/-- Modelled from the spec: the concrete response value produced by
materialization — a status code, a multi-valued header collection and a byte
body (empty body by default). -/
structure Response where
  status : Nat
  headers : Headers
  body : List Nat
deriving DecidableEq

/-- Modelled from the spec: `Response::new` — the given status, no headers,
empty body. -/
def Response.new (c : Nat) : Response :=
  { status := c, headers := [], body := [] }

/-- Modelled from the spec: the response-construction primitive
`Response::insert_header`, which attaches all given values under the name,
and may reject a name/value combination (here: one that fails validation);
the source `unwrap`s its result. -/
def Response.insert_header (r : Response) (k : HeaderName) (vs : List HeaderValue) :
    Except String Response :=
  if isValidHeaderNameRaw k.name && vs.all (fun v => isValidHeaderValueRaw v.value) then
    .ok { r with headers := hmInsert r.headers k vs }
  else
    .error "invalid header name/value combination"

/-- The header-attaching loop of `generate_response`: insert every
`(name, values)` pair of the template into the response, propagating the
`unwrap` panic of the primitive as an error. -/
def addHeaders : Headers → Response → Except String Response
  | [], r => .ok r
  | p :: rest, r =>
    match r.insert_header p.1 p.2 with
    | .ok r2 => addHeaders rest r2
    | .error e => .error e

/-- Modelled from the spec: `Response::set_body` replaces the response body. -/
def Response.set_body (r : Response) (b : List Nat) : Response :=
  { r with body := b }

/-- `ResponseTemplate::generate_response`: build a response from the stored
status, attach every stored header pair, then attach the stored body when one
is present (otherwise the response keeps its default empty body). -/
def ResponseTemplate.generate_response (t : ResponseTemplate) : Except String Response :=
  match addHeaders t.headers (Response.new t.status_code) with
  | .error e => .error e
  | .ok r =>
    match t.body with
    | some b => .ok (r.set_body b)
    | none => .ok r

/-- Templates built only through the public operations: `new` on a numeric
status-like input followed by any sequence of `append_header` /
`insert_header` on string name/value inputs and `set_body`, with every
conversion having succeeded. -/
inductive Reachable : ResponseTemplate → Prop
  | construct (s c : Nat) : statusCodeTryFrom s = .ok c →
      Reachable (ResponseTemplate.newCore c)
  | append (t : ResponseTemplate) (ks vs : String) (k : HeaderName) (v : HeaderValue) :
      Reachable t → headerNameTryFrom ks = .ok k → headerValueTryFrom vs = .ok v →
      Reachable (t.appendHeaderCore k v)
  | insert (t : ResponseTemplate) (ks vs : String) (k : HeaderName) (v : HeaderValue) :
      Reachable t → headerNameTryFrom ks = .ok k → headerValueTryFrom vs = .ok v →
      Reachable (t.insertHeaderCore k v)
  | body (t : ResponseTemplate) (b : List Nat) :
      Reachable t → Reachable (t.setBodyCore b)

/-- Invariant of the header map: every key maps to a non-empty value list. -/
def headerValuesNonEmpty (h : Headers) : Prop := ∀ p ∈ h, p.2 ≠ []

/-- All header names and values stored in a map pass the boundary
validation. -/
def headersAllValid (h : Headers) : Prop :=
  ∀ p ∈ h, isValidHeaderNameRaw p.1.name = true ∧
    ∀ v ∈ p.2, isValidHeaderValueRaw v.value = true

/-- All keys of a header map are stored in lowercase form. -/
def keysLowered (h : Headers) : Prop :=
  ∀ p ∈ h, lowerString p.1.name = p.1.name

/-- Well-formedness of a template's header map: keys are unique, every
stored name passed validation and is stored lowercased, and every stored
value passed validation. -/
def templateWf (t : ResponseTemplate) : Prop :=
  t.headers.Pairwise (fun a b => a.1 ≠ b.1) ∧
  ∀ p ∈ t.headers, isValidHeaderNameRaw p.1.name = true ∧
    lowerString p.1.name = p.1.name ∧
    ∀ v ∈ p.2, isValidHeaderValueRaw v.value = true

/-- The spec scenario `Construct(500).InsertHeader("A", "1")
.InsertHeader("B", "2").InsertHeader("A", "3").Materialize()`. -/
def scenarioInsert : Except String Response := do
  let t0 ← ResponseTemplate.new (statusCodeTryFrom 500)
  let t1 ← t0.insert_header (headerNameTryFrom "A") (headerValueTryFrom "1")
  let t2 ← t1.insert_header (headerNameTryFrom "B") (headerValueTryFrom "2")
  let t3 ← t2.insert_header (headerNameTryFrom "A") (headerValueTryFrom "3")
  t3.generate_response

/-- Concrete template used to instantiate universally quantified theorems. -/
def exampleTemplate : ResponseTemplate :=
  { status_code := 200, headers := [(⟨"x-test"⟩, [⟨"a"⟩, ⟨"b"⟩])], body := none }

/-- The response that `exampleTemplate` materializes to. -/
def exampleResponse : Response :=
  { status := 200, headers := [(⟨"x-test"⟩, [⟨"a"⟩, ⟨"b"⟩])], body := [] }

/-! Basic lemmas about the association-list map operations. -/

theorem hmFind?_insert_self (h : Headers) (k : HeaderName) (vs : List HeaderValue) :
    hmFind? (hmInsert h k vs) k = some vs := by
  induction h with
  | nil => simp [hmInsert, hmFind?]
  | cons p rest ih =>
    by_cases hp : p.1 = k
    · simp [hmInsert, hmFind?, hp]
    · simp [hmInsert, hmFind?, hp, ih]

theorem hmFind?_insert_ne (h : Headers) {k k' : HeaderName} (vs : List HeaderValue)
    (hk : k' ≠ k) : hmFind? (hmInsert h k vs) k' = hmFind? h k' := by
  induction h with
  | nil =>
    have hkk : ¬(k = k') := fun hh => hk hh.symm
    simp [hmInsert, hmFind?, hkk]
  | cons p rest ih =>
    have hkk : ¬(k = k') := fun hh => hk hh.symm
    by_cases hp : p.1 = k
    · simp [hmInsert, hmFind?, hp, hkk]
    · simp only [hmInsert, hmFind?, if_neg hp]
      by_cases hq : p.1 = k' <;> simp [hmFind?, hq, ih]

theorem hmFind?_modify_self (h : Headers) (k : HeaderName)
    (f : List HeaderValue → List HeaderValue) :
    hmFind? (hmModify h k f) k = (hmFind? h k).map f := by
  induction h with
  | nil => simp [hmModify, hmFind?]
  | cons p rest ih =>
    by_cases hp : p.1 = k
    · simp [hmModify, hmFind?, hp]
    · simp [hmModify, hmFind?, hp, ih]

theorem hmFind?_modify_ne (h : Headers) {k k' : HeaderName}
    (f : List HeaderValue → List HeaderValue) (hk : k' ≠ k) :
    hmFind? (hmModify h k f) k' = hmFind? h k' := by
  induction h with
  | nil => simp [hmModify, hmFind?]
  | cons p rest ih =>
    have hkk : ¬(k = k') := fun hh => hk hh.symm
    by_cases hp : p.1 = k
    · simp [hmModify, hmFind?, hp, hkk]
    · simp only [hmModify, hmFind?, if_neg hp]
      by_cases hq : p.1 = k' <;> simp [hmFind?, hq, ih]

theorem mem_hmInsert {h : Headers} {k : HeaderName} {vs : List HeaderValue}
    {p : HeaderName × List HeaderValue} (hp : p ∈ hmInsert h k vs) :
    p ∈ h ∨ p = (k, vs) := by
  induction h with
  | nil =>
    simp [hmInsert] at hp
    exact Or.inr hp
  | cons q rest ih =>
    by_cases hq : q.1 = k
    · simp only [hmInsert, if_pos hq, List.mem_cons] at hp
      rcases hp with hp | hp
      · exact Or.inr (by rw [hp, hq])
      · exact Or.inl (List.mem_cons_of_mem _ hp)
    · simp only [hmInsert, if_neg hq, List.mem_cons] at hp
      rcases hp with hp | hp
      · exact Or.inl (by simp [hp])
      · rcases ih hp with hh | hh
        · exact Or.inl (List.mem_cons_of_mem _ hh)
        · exact Or.inr hh

theorem mem_hmModify {h : Headers} {k : HeaderName}
    {f : List HeaderValue → List HeaderValue}
    {p : HeaderName × List HeaderValue} (hp : p ∈ hmModify h k f) :
    p ∈ h ∨ ∃ vs, (k, vs) ∈ h ∧ p = (k, f vs) := by
  induction h with
  | nil =>
    simp [hmModify] at hp
  | cons q rest ih =>
    by_cases hq : q.1 = k
    · simp only [hmModify, if_pos hq, List.mem_cons] at hp
      rcases hp with hp | hp
      · refine Or.inr ⟨q.2, ?_, by rw [hp, hq]⟩
        have hqe : (k, q.2) = q := by rw [← hq]
        rw [hqe]
        exact List.mem_cons_self q rest
      · exact Or.inl (List.mem_cons_of_mem _ hp)
    · simp only [hmModify, if_neg hq, List.mem_cons] at hp
      rcases hp with hp | hp
      · exact Or.inl (by simp [hp])
      · rcases ih hp with hh | ⟨vs, hvs, hpe⟩
        · exact Or.inl (List.mem_cons_of_mem _ hh)
        · exact Or.inr ⟨vs, List.mem_cons_of_mem _ hvs, hpe⟩

theorem hmInsert_of_find_none {h : Headers} {k : HeaderName} (vs : List HeaderValue)
    (hf : hmFind? h k = none) : hmInsert h k vs = h ++ [(k, vs)] := by
  induction h with
  | nil => simp [hmInsert]
  | cons p rest ih =>
    by_cases hp : p.1 = k
    · simp [hmFind?, hp] at hf
    · simp only [hmFind?, if_neg hp] at hf
      simp [hmInsert, hp, ih hf]

theorem hmFind?_append_of_none {a : Headers} (b : Headers) {k : HeaderName}
    (ha : hmFind? a k = none) : hmFind? (a ++ b) k = hmFind? b k := by
  induction a with
  | nil => simp
  | cons p rest ih =>
    by_cases hp : p.1 = k
    · simp [hmFind?, hp] at ha
    · simp only [hmFind?, if_neg hp] at ha
      simp [hmFind?, hp, ih ha]

theorem hmFind?_of_mem_pairwise {h : Headers} {p : HeaderName × List HeaderValue}
    (hnd : h.Pairwise (fun a b => a.1 ≠ b.1)) (hp : p ∈ h) :
    hmFind? h p.1 = some p.2 := by
  induction h with
  | nil => simp at hp
  | cons q rest ih =>
    rcases List.pairwise_cons.mp hnd with ⟨hq, hrest⟩
    rcases List.mem_cons.mp hp with hp | hp
    · subst hp
      simp [hmFind?]
    · have : q.1 ≠ p.1 := hq p hp
      simp [hmFind?, this, ih hrest hp]

/-! Projection lemmas for the core template operations. -/

theorem appendHeaderCore_status_code (t : ResponseTemplate) (k : HeaderName) (v : HeaderValue) :
    (t.appendHeaderCore k v).status_code = t.status_code := by
  unfold ResponseTemplate.appendHeaderCore
  cases hmFind? t.headers k <;> rfl

theorem appendHeaderCore_body (t : ResponseTemplate) (k : HeaderName) (v : HeaderValue) :
    (t.appendHeaderCore k v).body = t.body := by
  unfold ResponseTemplate.appendHeaderCore
  cases hmFind? t.headers k <;> rfl

theorem appendHeaderCore_headers_of_none {t : ResponseTemplate} {k : HeaderName}
    (v : HeaderValue) (h : hmFind? t.headers k = none) :
    (t.appendHeaderCore k v).headers = hmInsert t.headers k [v] := by
  unfold ResponseTemplate.appendHeaderCore
  rw [h]

theorem appendHeaderCore_headers_of_some {t : ResponseTemplate} {k : HeaderName}
    {vs : List HeaderValue} (v : HeaderValue) (h : hmFind? t.headers k = some vs) :
    (t.appendHeaderCore k v).headers = hmModify t.headers k (fun l => l ++ [v]) := by
  unfold ResponseTemplate.appendHeaderCore
  rw [h]

/-! Characterization of the materialization loop. -/

theorem addHeaders_ok {l : Headers} {r0 r : Response} (h : addHeaders l r0 = .ok r) :
    r.status = r0.status ∧ r.body = r0.body ∧
    r.headers = l.foldl (fun acc p => hmInsert acc p.1 p.2) r0.headers := by
  induction l generalizing r0 with
  | nil =>
    simp only [addHeaders, Except.ok.injEq] at h
    subst h
    exact ⟨rfl, rfl, rfl⟩
  | cons p rest ih =>
    simp only [addHeaders] at h
    split at h
    · rename_i r2 hin
      have hr2 : r2.status = r0.status ∧ r2.body = r0.body ∧
          r2.headers = hmInsert r0.headers p.1 p.2 := by
        unfold Response.insert_header at hin
        split at hin
        · injection hin with hh
          subst hh
          exact ⟨rfl, rfl, rfl⟩
        · exact Except.noConfusion hin
      obtain ⟨h1, h2, h3⟩ := ih h
      obtain ⟨g1, g2, g3⟩ := hr2
      refine ⟨h1.trans g1, h2.trans g2, ?_⟩
      rw [List.foldl_cons, h3, g3]
    · rename_i e hin
      exact Except.noConfusion h

theorem foldl_hmInsert_fresh (l : Headers) (acc : Headers)
    (hfresh : ∀ p ∈ l, hmFind? acc p.1 = none)
    (hnd : l.Pairwise (fun a b => a.1 ≠ b.1)) :
    l.foldl (fun h p => hmInsert h p.1 p.2) acc = acc ++ l := by
  induction l generalizing acc with
  | nil => simp
  | cons p rest ih =>
    rcases List.pairwise_cons.mp hnd with ⟨hp, hrest⟩
    have hacc : hmFind? acc p.1 = none := hfresh p (List.mem_cons_self _ _)
    rw [List.foldl_cons, hmInsert_of_find_none _ hacc]
    have hfresh2 : ∀ q ∈ rest, hmFind? (acc ++ [(p.1, p.2)]) q.1 = none := by
      intro q hq
      rw [hmFind?_append_of_none _ (hfresh q (List.mem_cons_of_mem _ hq))]
      simp [hmFind?, hp q hq]
    rw [ih _ hfresh2 hrest]
    simp

theorem generate_response_ok {t : ResponseTemplate} {r : Response}
    (hnd : t.headers.Pairwise (fun a b => a.1 ≠ b.1))
    (h : t.generate_response = .ok r) :
    r.status = t.status_code ∧ r.headers = t.headers ∧ r.body = t.body.getD [] := by
  unfold ResponseTemplate.generate_response at h
  split at h
  · exact Except.noConfusion h
  · rename_i r1 hadd
    obtain ⟨h1, h2, h3⟩ := addHeaders_ok hadd
    have hh : r1.headers = t.headers := by
      rw [h3]
      have := foldl_hmInsert_fresh t.headers [] (fun p _ => rfl) hnd
      simpa [Response.new] using this
    cases hb : t.body with
    | some b =>
      rw [hb] at h
      simp only [Except.ok.injEq] at h
      subst h
      refine ⟨h1, hh, ?_⟩
      simp [Response.set_body, hb]
    | none =>
      rw [hb] at h
      simp only [Except.ok.injEq] at h
      subst h
      refine ⟨h1, hh, ?_⟩
      rw [h2]
      rfl

/-! Claim theorems. -/

/-- C1: for every template whose header map has unique keys (the `HashMap`
invariant), a successful materialization yields a response whose status
equals the stored status code, whose header map associates to every stored
`(name, values)` pair exactly that value list in the stored order, and whose
body is the stored body when present and empty otherwise. -/
theorem generate_response_spec (t : ResponseTemplate) (r : Response)
    (hnd : t.headers.Pairwise (fun a b => a.1 ≠ b.1))
    (h : t.generate_response = .ok r) :
    r.status = t.status_code ∧
    (∀ p ∈ t.headers, hmFind? r.headers p.1 = some p.2) ∧
    r.body = t.body.getD [] := by
  obtain ⟨h1, h2, h3⟩ := generate_response_ok hnd h
  refine ⟨h1, ?_, h3⟩
  intro p hp
  rw [h2]
  exact hmFind?_of_mem_pairwise hnd hp

/-- Witness for C1 at a concrete template. -/
theorem generate_response_spec_witness :
    exampleTemplate.headers.Pairwise (fun a b => a.1 ≠ b.1) ∧
    exampleTemplate.generate_response = .ok exampleResponse ∧
    (exampleResponse.status = exampleTemplate.status_code ∧
     (∀ p ∈ exampleTemplate.headers, hmFind? exampleResponse.headers p.1 = some p.2) ∧
     exampleResponse.body = exampleTemplate.body.getD []) :=
  ⟨by decide, rfl, generate_response_spec exampleTemplate exampleResponse (by decide) rfl⟩

/-- C2: appending a header value under a name absent from the map stores the
single-element list `[v1]`; appending a second value under the same name
yields `[v1, v2]` in that order; and after either call every other header
name's value list, the status code and the body are unchanged. -/
theorem append_header_spec (t : ResponseTemplate) (k : HeaderName) (v1 v2 : HeaderValue)
    (h : hmFind? t.headers k = none) :
    hmFind? (t.appendHeaderCore k v1).headers k = some [v1] ∧
    hmFind? ((t.appendHeaderCore k v1).appendHeaderCore k v2).headers k = some [v1, v2] ∧
    (∀ k', k' ≠ k →
      hmFind? (t.appendHeaderCore k v1).headers k' = hmFind? t.headers k') ∧
    (∀ k', k' ≠ k →
      hmFind? ((t.appendHeaderCore k v1).appendHeaderCore k v2).headers k' =
        hmFind? t.headers k') ∧
    (t.appendHeaderCore k v1).status_code = t.status_code ∧
    (t.appendHeaderCore k v1).body = t.body ∧
    ((t.appendHeaderCore k v1).appendHeaderCore k v2).status_code = t.status_code ∧
    ((t.appendHeaderCore k v1).appendHeaderCore k v2).body = t.body := by
  have h1 : (t.appendHeaderCore k v1).headers = hmInsert t.headers k [v1] :=
    appendHeaderCore_headers_of_none v1 h
  have hf1 : hmFind? (t.appendHeaderCore k v1).headers k = some [v1] := by
    rw [h1]
    exact hmFind?_insert_self _ _ _
  have h2 : ((t.appendHeaderCore k v1).appendHeaderCore k v2).headers =
      hmModify (t.appendHeaderCore k v1).headers k (fun l => l ++ [v2]) :=
    appendHeaderCore_headers_of_some v2 hf1
  have hf2 : hmFind? ((t.appendHeaderCore k v1).appendHeaderCore k v2).headers k =
      some [v1, v2] := by
    rw [h2, hmFind?_modify_self, hf1]
    rfl
  refine ⟨hf1, hf2, ?_, ?_, ?_, ?_, ?_, ?_⟩
  · intro k' hk
    rw [h1, hmFind?_insert_ne _ _ hk]
  · intro k' hk
    rw [h2, hmFind?_modify_ne _ _ hk, h1, hmFind?_insert_ne _ _ hk]
  · rw [appendHeaderCore_status_code]
  · rw [appendHeaderCore_body]
  · rw [appendHeaderCore_status_code, appendHeaderCore_status_code]
  · rw [appendHeaderCore_body, appendHeaderCore_body]

/-- Witness for C2 at a concrete template, name and values. -/
theorem append_header_spec_witness :
    hmFind? (ResponseTemplate.newCore 200).headers ⟨"x-test"⟩ = none ∧
    hmFind? ((ResponseTemplate.newCore 200).appendHeaderCore ⟨"x-test"⟩ ⟨"a"⟩).headers
      ⟨"x-test"⟩ = some [⟨"a"⟩] ∧
    hmFind? (((ResponseTemplate.newCore 200).appendHeaderCore ⟨"x-test"⟩
        ⟨"a"⟩).appendHeaderCore ⟨"x-test"⟩ ⟨"b"⟩).headers ⟨"x-test"⟩ = some [⟨"a"⟩, ⟨"b"⟩] :=
  ⟨rfl,
   (append_header_spec (ResponseTemplate.newCore 200) ⟨"x-test"⟩ ⟨"a"⟩ ⟨"b"⟩ rfl).1,
   (append_header_spec (ResponseTemplate.newCore 200) ⟨"x-test"⟩ ⟨"a"⟩ ⟨"b"⟩ rfl).2.1⟩

/-- C3: inserting a header value unconditionally replaces the value list
stored under that name with the single-element list, leaves every other
name's list untouched, in particular replaces a previously appended value,
and the spec scenario with statuses and header names
`Construct(500).InsertHeader("A","1").InsertHeader("B","2")
.InsertHeader("A","3")` materializes to header `a = ["3"]` and `b = ["2"]`
(names stored lowercased). -/
theorem insert_header_spec :
    (∀ (t : ResponseTemplate) (k : HeaderName) (v : HeaderValue),
      hmFind? (t.insertHeaderCore k v).headers k = some [v] ∧
      (∀ k', k' ≠ k →
        hmFind? (t.insertHeaderCore k v).headers k' = hmFind? t.headers k') ∧
      (t.insertHeaderCore k v).status_code = t.status_code ∧
      (t.insertHeaderCore k v).body = t.body) ∧
    (∀ (t : ResponseTemplate) (k : HeaderName) (v1 v2 : HeaderValue),
      hmFind? ((t.appendHeaderCore k v1).insertHeaderCore k v2).headers k = some [v2]) ∧
    scenarioInsert =
      .ok { status := 500, headers := [(⟨"a"⟩, [⟨"3"⟩]), (⟨"b"⟩, [⟨"2"⟩])], body := [] } := by
  refine ⟨?_, ?_, rfl⟩
  · intro t k v
    exact ⟨hmFind?_insert_self _ _ _,
      fun k' hk => hmFind?_insert_ne _ _ hk, rfl, rfl⟩
  · intro t k v1 v2
    exact hmFind?_insert_self _ _ _

/-- Witness for C3 at a concrete template, name and values. -/
theorem insert_header_spec_witness :
    hmFind? ((ResponseTemplate.newCore 200).insertHeaderCore ⟨"x-test"⟩ ⟨"a"⟩).headers
      ⟨"x-test"⟩ = some [⟨"a"⟩] ∧
    hmFind? (((ResponseTemplate.newCore 200).appendHeaderCore ⟨"x-test"⟩
        ⟨"a"⟩).insertHeaderCore ⟨"x-test"⟩ ⟨"b"⟩).headers ⟨"x-test"⟩ = some [⟨"b"⟩] :=
  ⟨(insert_header_spec.1 (ResponseTemplate.newCore 200) ⟨"x-test"⟩ ⟨"a"⟩).1,
   insert_header_spec.2.1 (ResponseTemplate.newCore 200) ⟨"x-test"⟩ ⟨"a"⟩ ⟨"b"⟩⟩

/-- C4: every failing conversion aborts (modelled as the `Except.error` panic
channel) with a message that names the failing operation via the source's
`expect` string and carries the conversion error, which itself names the
offending input; in particular `Construct(999)` aborts. -/
theorem conversion_failure_aborts :
    (∀ e, ResponseTemplate.new (.error e) =
      .error ("Failed to convert into status code." ++ ": " ++ e)) ∧
    (∀ (t : ResponseTemplate) (v : Except String HeaderValue) (e : String),
      t.append_header (.error e) v =
        .error ("Failed to convert into header name." ++ ": " ++ e)) ∧
    (∀ (t : ResponseTemplate) (k : HeaderName) (e : String),
      t.append_header (.ok k) (.error e) =
        .error ("Failed to convert into header value." ++ ": " ++ e)) ∧
    (∀ (t : ResponseTemplate) (v : Except String HeaderValue) (e : String),
      t.insert_header (.error e) v =
        .error ("Failed to convert into header name." ++ ": " ++ e)) ∧
    (∀ (t : ResponseTemplate) (k : HeaderName) (e : String),
      t.insert_header (.ok k) (.error e) =
        .error ("Failed to convert into header value." ++ ": " ++ e)) ∧
    (∀ (t : ResponseTemplate) (e : String),
      t.set_body (.error e) = .error ("Failed to convert into body." ++ ": " ++ e)) ∧
    (∀ s : Nat, isValidStatus s = false →
      statusCodeTryFrom s = .error ("invalid status code: " ++ toString s)) ∧
    (∀ s : String, isValidHeaderNameRaw s = false →
      headerNameTryFrom s = .error ("invalid header name: " ++ s)) ∧
    (∀ s : String, isValidHeaderValueRaw s = false →
      headerValueTryFrom s = .error ("invalid header value: " ++ s)) ∧
    ResponseTemplate.new (statusCodeTryFrom 999) =
      .error "Failed to convert into status code.: invalid status code: 999" := by
  refine ⟨fun e => rfl, fun t v e => rfl, fun t k e => rfl, fun t v e => rfl,
    fun t k e => rfl, fun t e => rfl, ?_, ?_, ?_, rfl⟩
  · intro s hs
    simp [statusCodeTryFrom, hs]
  · intro s hs
    simp [headerNameTryFrom, hs]
  · intro s hs
    simp [headerValueTryFrom, hs]

/-- Witness for C4: the invalid status 999 and an invalid header name. -/
theorem conversion_failure_aborts_witness :
    isValidStatus 999 = false ∧
    statusCodeTryFrom 999 = .error ("invalid status code: " ++ toString 999) ∧
    isValidHeaderNameRaw "" = false ∧
    headerNameTryFrom "" = .error ("invalid header name: " ++ "") :=
  ⟨by decide, conversion_failure_aborts.2.2.2.2.2.2.1 999 (by decide),
   by decide, conversion_failure_aborts.2.2.2.2.2.2.2.1 "" (by decide)⟩

/-- C6: materialization is a pure function of the template (the source method
borrows the template immutably and mutates nothing), so any two invocations
on the same template yield responses with the same status, the same header
multimap and the same body. -/
theorem generate_response_repeatable (t : ResponseTemplate) (r1 r2 : Response)
    (h1 : t.generate_response = .ok r1) (h2 : t.generate_response = .ok r2) :
    r1.status = r2.status ∧ r1.headers = r2.headers ∧ r1.body = r2.body := by
  rw [h1] at h2
  injection h2 with hr
  subst hr
  exact ⟨rfl, rfl, rfl⟩

/-- Witness for C6 at a concrete template. -/
theorem generate_response_repeatable_witness :
    (ResponseTemplate.newCore 200).generate_response = .ok (Response.new 200) ∧
    ((Response.new 200).status = (Response.new 200).status ∧
     (Response.new 200).headers = (Response.new 200).headers ∧
     (Response.new 200).body = (Response.new 200).body) :=
  ⟨rfl, generate_response_repeatable (ResponseTemplate.newCore 200) _ _ rfl rfl⟩

/-- C7: setting the body twice keeps only the second body (last write wins,
other fields untouched), and a template whose body was never set materializes
to a response with an empty body. -/
theorem set_body_last_write_wins :
    (∀ (t : ResponseTemplate) (b1 b2 : List Nat),
      ((t.setBodyCore b1).setBodyCore b2).body = some b2 ∧
      ((t.setBodyCore b1).setBodyCore b2).status_code = t.status_code ∧
      ((t.setBodyCore b1).setBodyCore b2).headers = t.headers) ∧
    (∀ (t : ResponseTemplate) (r : Response),
      t.body = none → t.generate_response = .ok r → r.body = []) := by
  constructor
  · intro t b1 b2
    exact ⟨rfl, rfl, rfl⟩
  · intro t r hb h
    unfold ResponseTemplate.generate_response at h
    split at h
    · exact Except.noConfusion h
    · rename_i r1 hadd
      rw [hb] at h
      simp only [Except.ok.injEq] at h
      subst h
      have := (addHeaders_ok hadd).2.1
      simpa [Response.new] using this

/-- Witness for C7 at a concrete template and bodies. -/
theorem set_body_last_write_wins_witness :
    (((ResponseTemplate.newCore 200).setBodyCore [1]).setBodyCore [2]).body = some [2] ∧
    (ResponseTemplate.newCore 200).body = none ∧
    (ResponseTemplate.newCore 200).generate_response = .ok (Response.new 200) ∧
    (Response.new 200).body = [] :=
  ⟨(set_body_last_write_wins.1 (ResponseTemplate.newCore 200) [1] [2]).1, rfl, rfl,
   set_body_last_write_wins.2 (ResponseTemplate.newCore 200) (Response.new 200) rfl rfl⟩

/-- C8: the constructor produces a map satisfying the non-empty-values
invariant, and each of the three setters preserves it: no operation ever
stores a key with an empty value list. -/
theorem header_map_values_nonempty :
    (∀ c : Nat, headerValuesNonEmpty (ResponseTemplate.newCore c).headers) ∧
    (∀ (t : ResponseTemplate) (k : HeaderName) (v : HeaderValue),
      headerValuesNonEmpty t.headers →
      headerValuesNonEmpty (t.appendHeaderCore k v).headers) ∧
    (∀ (t : ResponseTemplate) (k : HeaderName) (v : HeaderValue),
      headerValuesNonEmpty t.headers →
      headerValuesNonEmpty (t.insertHeaderCore k v).headers) ∧
    (∀ (t : ResponseTemplate) (b : List Nat),
      headerValuesNonEmpty t.headers →
      headerValuesNonEmpty (t.setBodyCore b).headers) := by
  refine ⟨?_, ?_, ?_, ?_⟩
  · intro c p hp
    simp [ResponseTemplate.newCore] at hp
  · intro t k v ht p hp
    cases hf : hmFind? t.headers k with
    | some vs =>
      rw [appendHeaderCore_headers_of_some v hf] at hp
      rcases mem_hmModify hp with hmem | ⟨vs2, _, hpe⟩
      · exact ht p hmem
      · rw [hpe]
        simp
    | none =>
      rw [appendHeaderCore_headers_of_none v hf] at hp
      rcases mem_hmInsert hp with hmem | hpe
      · exact ht p hmem
      · rw [hpe]
        simp
  · intro t k v ht p hp
    rcases mem_hmInsert hp with hmem | hpe
    · exact ht p hmem
    · rw [hpe]
      simp
  · intro t b ht p hp
    exact ht p hp

/-- Witness for C8 at a concrete template, name and value. -/
theorem header_map_values_nonempty_witness :
    headerValuesNonEmpty (ResponseTemplate.newCore 200).headers ∧
    headerValuesNonEmpty ((ResponseTemplate.newCore 200).appendHeaderCore
      ⟨"x-test"⟩ ⟨"a"⟩).headers :=
  ⟨header_map_values_nonempty.1 200,
   header_map_values_nonempty.2.1 (ResponseTemplate.newCore 200) ⟨"x-test"⟩ ⟨"a"⟩
     (header_map_values_nonempty.1 200)⟩

/-- C10: for every numeric input whose status conversion succeeds, the
constructor yields a template carrying exactly the converted status, an
empty header map and no body. -/
theorem new_spec (s c : Nat) (h : statusCodeTryFrom s = .ok c) :
    ResponseTemplate.new (statusCodeTryFrom s) =
      .ok { status_code := c, headers := [], body := none } := by
  unfold ResponseTemplate.new
  rw [h]
  rfl

/-- Witness for C10 at the concrete status 200. -/
theorem new_spec_witness :
    statusCodeTryFrom 200 = .ok 200 ∧
    ResponseTemplate.new (statusCodeTryFrom 200) =
      .ok { status_code := 200, headers := [], body := none } :=
  ⟨rfl, new_spec 200 200 rfl⟩

/-! Lemmas about ASCII lowercasing and validation. -/

theorem char_toNat_ofNat (n : Nat) (h : n < 55296) : (Char.ofNat n).toNat = n := by
  have hv : n.isValidChar := Or.inl h
  rw [Char.ofNat, dif_pos hv]
  rfl

theorem lowerChar_toNat (c : Char) (h : 65 ≤ c.toNat ∧ c.toNat ≤ 90) :
    (lowerChar c).toNat = c.toNat + 32 := by
  unfold lowerChar
  rw [if_pos h]
  exact char_toNat_ofNat _ (by omega)

theorem lowerChar_of_not_upper (c : Char) (h : ¬(65 ≤ c.toNat ∧ c.toNat ≤ 90)) :
    lowerChar c = c := by
  unfold lowerChar
  rw [if_neg h]

theorem lowerChar_not_upper (c : Char) :
    ¬(65 ≤ (lowerChar c).toNat ∧ (lowerChar c).toNat ≤ 90) := by
  by_cases h : 65 ≤ c.toNat ∧ c.toNat ≤ 90
  · rw [lowerChar_toNat c h]
    omega
  · rw [lowerChar_of_not_upper c h]
    exact h

theorem lowerChar_idem (c : Char) : lowerChar (lowerChar c) = lowerChar c :=
  lowerChar_of_not_upper _ (lowerChar_not_upper c)

theorem isTokenChar_iff (c : Char) : isTokenChar c = true ↔
    (48 ≤ c.toNat ∧ c.toNat ≤ 57) ∨ (65 ≤ c.toNat ∧ c.toNat ≤ 90) ∨
    (97 ≤ c.toNat ∧ c.toNat ≤ 122) ∨ c.toNat = 33 ∨ c.toNat = 35 ∨ c.toNat = 36 ∨
    c.toNat = 37 ∨ c.toNat = 38 ∨ c.toNat = 39 ∨ c.toNat = 42 ∨ c.toNat = 43 ∨
    c.toNat = 45 ∨ c.toNat = 46 ∨ c.toNat = 94 ∨ c.toNat = 95 ∨ c.toNat = 96 ∨
    c.toNat = 124 ∨ c.toNat = 126 := by
  unfold isTokenChar
  simp [Bool.or_eq_true, Bool.and_eq_true, decide_eq_true_eq, Nat.beq_eq_true_eq, or_assoc]

theorem isTokenChar_lowerChar {c : Char} (h : isTokenChar c = true) :
    isTokenChar (lowerChar c) = true := by
  rw [isTokenChar_iff] at h ⊢
  by_cases hc : 65 ≤ c.toNat ∧ c.toNat ≤ 90
  · rw [lowerChar_toNat c hc]
    omega
  · rw [lowerChar_of_not_upper c hc]
    exact h

theorem lowerString_data (s : String) : (lowerString s).data = s.data.map lowerChar := rfl

theorem lowerString_idem (s : String) : lowerString (lowerString s) = lowerString s := by
  show String.mk ((s.data.map lowerChar).map lowerChar) = String.mk (s.data.map lowerChar)
  rw [List.map_map]
  exact congrArg String.mk (List.map_congr_left fun c _ => lowerChar_idem c)

theorem isValidHeaderNameRaw_lowerString {s : String}
    (h : isValidHeaderNameRaw s = true) : isValidHeaderNameRaw (lowerString s) = true := by
  unfold isValidHeaderNameRaw at h ⊢
  rw [Bool.and_eq_true] at h
  obtain ⟨h1, h2⟩ := h
  rw [Bool.and_eq_true]
  constructor
  · rw [lowerString_data]
    cases hd : s.data with
    | nil =>
      rw [hd] at h1
      simp at h1
    | cons a l => rfl
  · rw [lowerString_data, List.all_eq_true] at *
    intro c hc
    rcases List.mem_map.mp hc with ⟨a, ha, rfl⟩
    exact isTokenChar_lowerChar (h2 a ha)

/-! Properties of the header-name and header-value conversions. -/

theorem headerNameTryFrom_ok {s : String} {k : HeaderName}
    (h : headerNameTryFrom s = .ok k) :
    k.name = lowerString s ∧ isValidHeaderNameRaw s = true := by
  unfold headerNameTryFrom at h
  split at h
  · rename_i hv
    injection h with hh
    subst hh
    exact ⟨rfl, hv⟩
  · exact Except.noConfusion h

theorem headerNameTryFrom_ok_valid {s : String} {k : HeaderName}
    (h : headerNameTryFrom s = .ok k) : isValidHeaderNameRaw k.name = true := by
  obtain ⟨h1, h2⟩ := headerNameTryFrom_ok h
  rw [h1]
  exact isValidHeaderNameRaw_lowerString h2

theorem headerNameTryFrom_ok_lowered {s : String} {k : HeaderName}
    (h : headerNameTryFrom s = .ok k) : lowerString k.name = k.name := by
  obtain ⟨h1, -⟩ := headerNameTryFrom_ok h
  rw [h1]
  exact lowerString_idem s

theorem headerNameTryFrom_inj {s1 s2 : String} {k1 k2 : HeaderName}
    (h1 : headerNameTryFrom s1 = .ok k1) (h2 : headerNameTryFrom s2 = .ok k2)
    (hl : lowerString s1 = lowerString s2) : k1 = k2 := by
  obtain ⟨e1, -⟩ := headerNameTryFrom_ok h1
  obtain ⟨e2, -⟩ := headerNameTryFrom_ok h2
  cases k1 with
  | mk n1 =>
    cases k2 with
    | mk n2 =>
      simp only at e1 e2
      rw [e1, e2, hl]

theorem headerValueTryFrom_ok {s : String} {v : HeaderValue}
    (h : headerValueTryFrom s = .ok v) :
    v.value = s ∧ isValidHeaderValueRaw v.value = true := by
  unfold headerValueTryFrom at h
  split at h
  · rename_i hv
    injection h with hh
    subst hh
    exact ⟨rfl, hv⟩
  · exact Except.noConfusion h

/-! Preservation of well-formedness by the operations. -/

theorem pairwise_hmInsert {h : Headers} (k : HeaderName) (vs : List HeaderValue)
    (hp : h.Pairwise (fun a b => a.1 ≠ b.1)) :
    (hmInsert h k vs).Pairwise (fun a b => a.1 ≠ b.1) := by
  induction h with
  | nil => simp [hmInsert]
  | cons q rest ih =>
    rcases List.pairwise_cons.mp hp with ⟨hq, hrest⟩
    by_cases hqk : q.1 = k
    · simp only [hmInsert, if_pos hqk]
      exact List.pairwise_cons.mpr ⟨fun b hb => hq b hb, hrest⟩
    · simp only [hmInsert, if_neg hqk]
      refine List.pairwise_cons.mpr ⟨?_, ih hrest⟩
      intro b hb
      rcases mem_hmInsert hb with hm | he
      · exact hq b hm
      · rw [he]
        exact hqk

theorem pairwise_hmModify {h : Headers} (k : HeaderName)
    (f : List HeaderValue → List HeaderValue)
    (hp : h.Pairwise (fun a b => a.1 ≠ b.1)) :
    (hmModify h k f).Pairwise (fun a b => a.1 ≠ b.1) := by
  induction h with
  | nil => simp [hmModify]
  | cons q rest ih =>
    rcases List.pairwise_cons.mp hp with ⟨hq, hrest⟩
    by_cases hqk : q.1 = k
    · simp only [hmModify, if_pos hqk]
      exact List.pairwise_cons.mpr ⟨fun b hb => hq b hb, hrest⟩
    · simp only [hmModify, if_neg hqk]
      refine List.pairwise_cons.mpr ⟨?_, ih hrest⟩
      intro b hb
      rcases mem_hmModify hb with hm | ⟨vs2, hvs2, he⟩
      · exact hq b hm
      · rw [he]
        exact hq (k, vs2) hvs2

theorem templateWf_newCore (c : Nat) : templateWf (ResponseTemplate.newCore c) := by
  constructor
  · exact List.Pairwise.nil
  · intro p hp
    simp [ResponseTemplate.newCore] at hp

theorem templateWf_appendHeaderCore {t : ResponseTemplate} {s1 s2 : String}
    {k : HeaderName} {v : HeaderValue} (hw : templateWf t)
    (hk : headerNameTryFrom s1 = .ok k) (hv : headerValueTryFrom s2 = .ok v) :
    templateWf (t.appendHeaderCore k v) := by
  obtain ⟨hpw, hval⟩ := hw
  have kvalid := headerNameTryFrom_ok_valid hk
  have klow := headerNameTryFrom_ok_lowered hk
  have vvalid := (headerValueTryFrom_ok hv).2
  cases hf : hmFind? t.headers k with
  | some vs =>
    constructor
    · rw [appendHeaderCore_headers_of_some v hf]
      exact pairwise_hmModify k _ hpw
    · rw [appendHeaderCore_headers_of_some v hf]
      intro p hp
      rcases mem_hmModify hp with hm | ⟨vs2, hvs2, he⟩
      · exact hval p hm
      · obtain ⟨g1, g2, g3⟩ := hval (k, vs2) hvs2
        rw [he]
        refine ⟨g1, g2, ?_⟩
        intro w hw
        rcases List.mem_append.mp hw with hw | hw
        · exact g3 w hw
        · rw [List.mem_singleton.mp hw]
          exact vvalid
  | none =>
    constructor
    · rw [appendHeaderCore_headers_of_none v hf]
      exact pairwise_hmInsert k _ hpw
    · rw [appendHeaderCore_headers_of_none v hf]
      intro p hp
      rcases mem_hmInsert hp with hm | he
      · exact hval p hm
      · rw [he]
        refine ⟨kvalid, klow, ?_⟩
        intro w hw
        rw [List.mem_singleton.mp hw]
        exact vvalid

theorem templateWf_insertHeaderCore {t : ResponseTemplate} {s1 s2 : String}
    {k : HeaderName} {v : HeaderValue} (hw : templateWf t)
    (hk : headerNameTryFrom s1 = .ok k) (hv : headerValueTryFrom s2 = .ok v) :
    templateWf (t.insertHeaderCore k v) := by
  obtain ⟨hpw, hval⟩ := hw
  constructor
  · exact pairwise_hmInsert k _ hpw
  · intro p hp
    rcases mem_hmInsert hp with hm | he
    · exact hval p hm
    · rw [he]
      refine ⟨headerNameTryFrom_ok_valid hk, headerNameTryFrom_ok_lowered hk, ?_⟩
      intro w hw
      rw [List.mem_singleton.mp hw]
      exact (headerValueTryFrom_ok hv).2

theorem templateWf_setBodyCore {t : ResponseTemplate} (hw : templateWf t) (b : List Nat) :
    templateWf (t.setBodyCore b) := hw

theorem reachable_wf {t : ResponseTemplate} (h : Reachable t) : templateWf t := by
  induction h with
  | construct s c hs => exact templateWf_newCore c
  | append t ks vs k v hr hk hv ih => exact templateWf_appendHeaderCore ih hk hv
  | insert t ks vs k v hr hk hv ih => exact templateWf_insertHeaderCore ih hk hv
  | body t b hr ih => exact templateWf_setBodyCore ih b

theorem addHeaders_total (l : Headers) :
    ∀ r0 : Response,
      (∀ p ∈ l, isValidHeaderNameRaw p.1.name = true ∧
        ∀ v ∈ p.2, isValidHeaderValueRaw v.value = true) →
      ∃ r, addHeaders l r0 = .ok r := by
  induction l with
  | nil =>
    intro r0 _
    exact ⟨r0, rfl⟩
  | cons p rest ih =>
    intro r0 hv
    obtain ⟨h1, h2⟩ := hv p (List.mem_cons_self _ _)
    have hcond : (isValidHeaderNameRaw p.1.name &&
        p.2.all fun v => isValidHeaderValueRaw v.value) = true := by
      rw [Bool.and_eq_true]
      exact ⟨h1, List.all_eq_true.mpr fun v hvm => h2 v hvm⟩
    have hins : Response.insert_header r0 p.1 p.2 =
        .ok { r0 with headers := hmInsert r0.headers p.1 p.2 } := by
      unfold Response.insert_header
      rw [if_pos hcond]
    obtain ⟨r, hr⟩ := ih _ (fun q hq => hv q (List.mem_cons_of_mem _ hq))
    refine ⟨r, ?_⟩
    simp only [addHeaders]
    rw [hins]
    exact hr

/-- C5: for every template built only through the public operations (a
constructor call followed by any sequence of header setters on converted
string inputs and body setters), materialization cannot fail: every stored
name and value already passed validation during the setter calls, so the
`unwrap` on the response-construction primitive is unreachable. -/
theorem generate_response_total (t : ResponseTemplate) (h : Reachable t) :
    ∃ r, t.generate_response = .ok r := by
  obtain ⟨-, hval⟩ := reachable_wf h
  obtain ⟨r1, hr1⟩ := addHeaders_total t.headers (Response.new t.status_code)
    (fun p hp => ⟨(hval p hp).1, (hval p hp).2.2⟩)
  unfold ResponseTemplate.generate_response
  rw [hr1]
  cases t.body with
  | some b => exact ⟨_, rfl⟩
  | none => exact ⟨_, rfl⟩

/-- Witness for C5 at a concrete reachable template. -/
theorem generate_response_total_witness :
    Reachable ((ResponseTemplate.newCore 200).appendHeaderCore ⟨"x-test"⟩ ⟨"a"⟩) ∧
    ∃ r, ((ResponseTemplate.newCore 200).appendHeaderCore
      ⟨"x-test"⟩ ⟨"a"⟩).generate_response = .ok r :=
  ⟨Reachable.append _ "X-Test" "a" _ _ (Reachable.construct 200 200 rfl) rfl rfl,
   generate_response_total _
     (Reachable.append _ "X-Test" "a" _ _ (Reachable.construct 200 200 rfl) rfl rfl)⟩

/-- C9: header names compare case-insensitively: converting two names equal
up to ASCII case yields the same key, so appending under a name differing
only in case appends to the same value list and inserting replaces it; and
the header map of a template built through the public operations never holds
two case-insensitively equal keys. -/
theorem header_name_case_insensitive :
    (∀ (s1 s2 : String) (k1 k2 : HeaderName),
      headerNameTryFrom s1 = .ok k1 → headerNameTryFrom s2 = .ok k2 →
      lowerString s1 = lowerString s2 → k1 = k2) ∧
    (∀ (t : ResponseTemplate) (s1 s2 : String) (k1 k2 : HeaderName)
      (v : HeaderValue) (vs : List HeaderValue),
      headerNameTryFrom s1 = .ok k1 → headerNameTryFrom s2 = .ok k2 →
      lowerString s1 = lowerString s2 → hmFind? t.headers k1 = some vs →
      hmFind? (t.appendHeaderCore k2 v).headers k1 = some (vs ++ [v]) ∧
      hmFind? (t.insertHeaderCore k2 v).headers k1 = some [v]) ∧
    (∀ t : ResponseTemplate, Reachable t →
      t.headers.Pairwise (fun a b => lowerString a.1.name ≠ lowerString b.1.name)) := by
  refine ⟨fun s1 s2 k1 k2 h1 h2 hl => headerNameTryFrom_inj h1 h2 hl, ?_, ?_⟩
  · intro t s1 s2 k1 k2 v vs h1 h2 hl hf
    have hk : k1 = k2 := headerNameTryFrom_inj h1 h2 hl
    subst hk
    constructor
    · rw [appendHeaderCore_headers_of_some v hf, hmFind?_modify_self, hf]
      rfl
    · exact hmFind?_insert_self _ _ _
  · intro t ht
    obtain ⟨hpw, hval⟩ := reachable_wf ht
    refine hpw.imp_of_mem ?_
    intro a b ha hb hne hlow
    obtain ⟨-, la, -⟩ := hval a ha
    obtain ⟨-, lb, -⟩ := hval b hb
    rw [la, lb] at hlow
    apply hne
    exact congrArg (fun n => (⟨n⟩ : HeaderName)) hlow

/-- Witness for C9: two spellings of the same header name. -/
theorem header_name_case_insensitive_witness :
    headerNameTryFrom "X-Test" = .ok ⟨"x-test"⟩ ∧
    headerNameTryFrom "x-TEST" = .ok ⟨"x-test"⟩ ∧
    lowerString "X-Test" = lowerString "x-TEST" ∧
    (⟨"x-test"⟩ : HeaderName) = ⟨"x-test"⟩ :=
  ⟨rfl, rfl, rfl,
   header_name_case_insensitive.1 "X-Test" "x-TEST" ⟨"x-test"⟩ ⟨"x-test"⟩ rfl rfl rfl⟩

end Wiremock
